import Mathlib

/-!
Shallow embedding of the priority-lane scheduling core of simplify-react.

Source files:
  src/unnamed/part_000 — the update-queue module (enqueueUpdate,
  processUpdateQueue, getStateFromUpdate);
  src/unnamed/part_001 — the work-loop / scheduling module
  (scheduleUpdateOnFiber, markUpdateLaneFromFiberToRoot,
  ensureRootIsScheduled, performConcurrentWorkOnRoot, renderRootSync,
  renderRootConcurrent, commitRootImpl and helpers).

Linked Update nodes live in an arena (Heap); JavaScript object pointers
are arena indices of type Option Nat, null being none; field mutation is
explicit state passing.  A JavaScript TypeError caused by dereferencing a
null updateQueue is an Except.error.  State values are association lists
observed only through lookups, so key order and shadowed duplicates are
irrelevant.
-/

namespace SReact

/-- JavaScript state objects, as association lists from keys to numbers.
They are observed only through objGet. -/
abbrev Obj := List (String × Nat)

/-- Key used in concrete examples (the field a of the spec example). -/
def keyA : String := "a"

/-- Key used in concrete examples (the field b of the spec example). -/
def keyB : String := "b"

/-- Key used in concrete examples. -/
def keyX : String := "x"

/-- Key used in concrete examples. -/
def keyY : String := "y"

/-- Lookup of a key in a state object; first binding wins. -/
def objGet (o : Obj) (k : String) : Option Nat :=
  List.lookup k o

/-- A JavaScript value holding either a state object or null / undefined
(both modelled as none; the source only distinguishes them through the
loose comparison with null). -/
abbrev StateV := Option Obj

/-- Modelled from the spec: the shallow merge used by the fold, i.e. the
assign helper of packages/shared (Object.assign of an empty target, the
previous state and the payload, which is not under src/).  Fields of src
override fields of target; observed through objGet, where the first
binding wins, so the merge is src prepended to target. -/
def assignObj (target src : Obj) : Obj :=
  src ++ target

/-- The object content of a JavaScript state value: null / undefined
contributes no fields to Object.assign. -/
def objOf (v : StateV) : Obj :=
  match v with
  | none => []
  | some o => o

/-- Update tag constant of the source (UpdateState = 0). -/
def UpdateState : Nat := 0

/-- One Update object (part_000 lines 11-18).  next is an arena index. -/
structure Update where
  eventTime : Nat
  lane : Nat
  tag : Nat
  payload : Option Obj
  callback : Option Unit
  next : Option Nat
deriving DecidableEq

/-- The shared queue of a fiber (part_000 lines 20-23): pending points at
the last Update of the circular pending list. -/
structure SharedQueue where
  pending : Option Nat
  lanes : Nat
deriving DecidableEq

/-- The update queue of a fiber (part_000 lines 25-33). -/
structure UpdateQueue where
  baseState : StateV
  firstBaseUpdate : Option Nat
  lastBaseUpdate : Option Nat
  shared : SharedQueue
  effects : Option (List Nat)
deriving DecidableEq

/-- The slice of a fiber node that the update-queue module touches. -/
structure Fiber where
  memoizedState : StateV
  updateQueue : Option UpdateQueue
deriving DecidableEq

/-- Arena of Update objects; a pointer is an index into it. -/
abbrev Heap := Nat → Update

/-- Mutation of the next field of one Update object in the arena. -/
def setNext (h : Heap) (i : Nat) (v : Option Nat) : Heap :=
  fun j => if j = i then { h j with next := v } else h j

/-- A blank Update, as createUpdate builds it (part_000 lines 71-80). -/
def defUpdate : Update :=
  { eventTime := 0, lane := 0, tag := UpdateState, payload := none,
    callback := none, next := none }

/-- Embedding of enqueueUpdate (part_000 lines 85-102): circular append of
the update at arena index u onto the shared pending list of the fiber.
A fiber without a queue is left untouched. -/
def enqueueUpdate (h : Heap) (fiber : Fiber) (u : Nat) : Heap × Fiber :=
  match fiber.updateQueue with
  | none => (h, fiber)
  | some updateQueue =>
    match updateQueue.shared.pending with
    | none =>
      let shared' : SharedQueue := { updateQueue.shared with pending := some u }
      let q' : UpdateQueue := { updateQueue with shared := shared' }
      (setNext h u (some u), { fiber with updateQueue := some q' })
    | some pending =>
      let h1 := setNext h u ((h pending).next)
      let h2 := setNext h1 pending (some u)
      let shared' : SharedQueue := { updateQueue.shared with pending := some u }
      let q' : UpdateQueue := { updateQueue with shared := shared' }
      (h2, { fiber with updateQueue := some q' })

/-- A sequence of enqueueUpdate calls, in order. -/
def enqueueAll (h : Heap) (fiber : Fiber) : List Nat → Heap × Fiber
  | [] => (h, fiber)
  | u :: us =>
    let r := enqueueUpdate h fiber u
    enqueueAll r.1 r.2 us

/-- Embedding of getStateFromUpdate (part_000 lines 172-183).  Only the
UpdateState tag is handled; any other tag falls out of the switch and the
function yields JavaScript undefined, modelled as none.  A null payload
(the loose comparison with null, so null or undefined) leaves the state
unchanged.  The unused workInProgress and queue parameters of the source
are dropped. -/
def getStateFromUpdate (update : Update) (prevState : StateV) : StateV :=
  if update.tag = UpdateState then
    match update.payload with
    | none => prevState
    | some payload => some (assignObj (objOf prevState) payload)
  else none

/-- TypeErrors that processUpdateQueue can raise: dereferencing a null
updateQueue on the work-in-progress fiber (line 107 of part_000), or on
its alternate (line 138). -/
inductive PErr where
  | nullQueue
  | nullCurrentQueue
deriving DecidableEq

/-- The state processUpdateQueue operates on: the Update arena, the
work-in-progress fiber and its alternate (current) fiber, when present.
The source text (part_000 lines 132-135) states that a node carries at
most two update queues, the current one and the work-in-progress one, so
the two queues are modelled as distinct values. -/
structure PState where
  heap : Heap
  wip : Fiber
  alternate : Option Fiber

/-- Embedding of the fold half of processUpdateQueue (part_000 lines
152-169): the source processes a single update (its own TODO comment
flags the missing loop over the rest of the base list), so
newFirstBaseUpdate and newLastBaseUpdate are constantly null and
newBaseState equals the state after that one update. -/
def processQueueFold (heap : Heap) (alternate : Option Fiber)
    (queue : UpdateQueue) (firstBaseUpdate : Option Nat)
    (memoizedState : StateV) : PState :=
  match firstBaseUpdate with
  | none =>
    { heap := heap,
      wip := { memoizedState := memoizedState, updateQueue := some queue },
      alternate := alternate }
  | some u =>
    let newState := getStateFromUpdate (heap u) queue.baseState
    let queue' : UpdateQueue :=
      { queue with
        baseState := newState
        firstBaseUpdate := none
        lastBaseUpdate := none }
    { heap := heap,
      wip := { memoizedState := newState, updateQueue := some queue' },
      alternate := alternate }

/-- Embedding of processUpdateQueue (part_000 lines 104-170).  If the
shared pending ring is non-null it is cut open (the link of the last
pending update is nulled) and the locals firstBaseUpdate /
lastBaseUpdate are recomputed; note that with a non-empty base list the
source executes firstBaseUpdate = lastBaseUpdate.next, reading the (null)
link of the old base tail, rather than attaching the pending list after
it.  If the alternate exists and the lastBaseUpdate of its queue differs
from the local lastBaseUpdate (the pending tail), the detached pending
list is spliced onto the alternate's base list.  Then the fold half runs. -/
def processUpdateQueue (s : PState) : Except PErr PState :=
  match s.wip.updateQueue with
  | none => Except.error PErr.nullQueue
  | some queue =>
    match queue.shared.pending with
    | none =>
      Except.ok (processQueueFold s.heap s.alternate queue
        queue.firstBaseUpdate s.wip.memoizedState)
    | some lastPendingUpdate =>
      let queue1 : UpdateQueue :=
        { queue with shared := { queue.shared with pending := none } }
      let firstPendingUpdate := (s.heap lastPendingUpdate).next
      let heap1 := setNext s.heap lastPendingUpdate none
      let firstBase :=
        match queue.lastBaseUpdate with
        | none => firstPendingUpdate
        | some c => (heap1 c).next
      match s.alternate with
      | none =>
        Except.ok (processQueueFold heap1 none queue1 firstBase
          s.wip.memoizedState)
      | some current =>
        match current.updateQueue with
        | none => Except.error PErr.nullCurrentQueue
        | some currentQueue =>
          if currentQueue.lastBaseUpdate = some lastPendingUpdate then
            Except.ok (processQueueFold heap1 (some current) queue1
              firstBase s.wip.memoizedState)
          else
            match currentQueue.lastBaseUpdate with
            | none =>
              let cq : UpdateQueue :=
                { currentQueue with
                  firstBaseUpdate := firstPendingUpdate
                  lastBaseUpdate := some lastPendingUpdate }
              Except.ok (processQueueFold heap1
                (some ({ current with updateQueue := some cq })) queue1
                firstBase s.wip.memoizedState)
            | some c =>
              let heap2 := setNext heap1 c firstPendingUpdate
              let cq : UpdateQueue :=
                { currentQueue with lastBaseUpdate := some lastPendingUpdate }
              Except.ok (processQueueFold heap2
                (some ({ current with updateQueue := some cq })) queue1
                firstBase s.wip.memoizedState)

/-- Lookup in the memoized state of the work-in-progress fiber of a
processUpdateQueue result; none when the call failed or the key is
absent. -/
def memoLookup (r : Except PErr PState) (k : String) : Option Nat :=
  match r with
  | Except.ok s => objGet (objOf s.wip.memoizedState) k
  | Except.error _ => none

/-- The memoized state of the work-in-progress fiber of a result. -/
def memoOf (r : Except PErr PState) : Option StateV :=
  match r with
  | Except.ok s => some s.wip.memoizedState
  | Except.error _ => none

/-- The firstBaseUpdate field of the work-in-progress queue of a result. -/
def queueFirstOf (r : Except PErr PState) : Option (Option Nat) :=
  match r with
  | Except.ok s =>
    match s.wip.updateQueue with
    | some q => some q.firstBaseUpdate
    | none => none
  | Except.error _ => none

/-- The lastBaseUpdate field of the work-in-progress queue of a result. -/
def queueLastOf (r : Except PErr PState) : Option (Option Nat) :=
  match r with
  | Except.ok s =>
    match s.wip.updateQueue with
    | some q => some q.lastBaseUpdate
    | none => none
  | Except.error _ => none

/-- The shared.pending field of the work-in-progress queue of a result. -/
def pendingOfRes (r : Except PErr PState) : Option (Option Nat) :=
  match r with
  | Except.ok s =>
    match s.wip.updateQueue with
    | some q => some q.shared.pending
    | none => none
  | Except.error _ => none

/-- The lastBaseUpdate of the alternate fiber's queue in a result; some
only when the call succeeded and the alternate and its queue exist. -/
def altLastOf (r : Except PErr PState) : Option Nat :=
  match r with
  | Except.ok s =>
    match s.alternate with
    | some f =>
      match f.updateQueue with
      | some q => q.lastBaseUpdate
      | none => none
    | none => none
  | Except.error _ => none

/-- The firstBaseUpdate of the alternate fiber's queue in a result. -/
def altFirstOf (r : Except PErr PState) : Option (Option Nat) :=
  match r with
  | Except.ok s =>
    match s.alternate with
    | some f =>
      match f.updateQueue with
      | some q => some q.firstBaseUpdate
      | none => none
    | none => none
  | Except.error _ => none

/-- The next link of the Update at index i in the arena of a result. -/
def heapNextOf (r : Except PErr PState) (i : Nat) : Option (Option Nat) :=
  match r with
  | Except.ok s => some ((s.heap i).next)
  | Except.error _ => none

/-- The shared.pending pointer of a fiber, none when it has no queue. -/
def pendingOf (fiber : Fiber) : Option Nat :=
  match fiber.updateQueue with
  | some q => q.shared.pending
  | none => none

/-- Walk a bounded number of steps along next links from start,
collecting the visited arena indices; a null link stops the walk. -/
def walkFrom (h : Heap) (start : Nat) : Nat → List Nat
  | 0 => []
  | n + 1 =>
    start ::
      (match (h start).next with
       | some t => walkFrom h t n
       | none => [])

/-- Decides that consecutive elements of the list are joined by next
links and that the final element links back to closeTo (for a pending
ring, the tail-to-head closure). -/
def chainLinksB (h : Heap) (closeTo : Nat) : List Nat → Bool
  | [] => true
  | [x] => (h x).next == some closeTo
  | x :: y :: rest => ((h x).next == some y) && chainLinksB h closeTo (y :: rest)

/-- Witness arena for C3: update 0 is the base update already on the
alternate's list; update 2 is the single pending update, ring-linked to
itself. -/
def c3Heap0 : Heap := fun i =>
  if i = 0 then { defUpdate with payload := some [(keyX, 1)] }
  else if i = 2 then { defUpdate with payload := some [(keyY, 2)], next := some 2 }
  else defUpdate

/-- The work-in-progress queue of the C3 witness state: empty base list,
pending ring holding update 2. -/
def c3WipQueue : UpdateQueue :=
  { baseState := none, firstBaseUpdate := none, lastBaseUpdate := none,
    shared := { pending := some 2, lanes := 0 }, effects := none }

/-- The alternate queue of the C3 witness state: base list holding
update 0. -/
def c3AltQueue : UpdateQueue :=
  { baseState := none, firstBaseUpdate := some 0, lastBaseUpdate := some 0,
    shared := { pending := none, lanes := 0 }, effects := none }

/-- The alternate fiber of the C3 witness state. -/
def c3Alt : Fiber :=
  { memoizedState := none, updateQueue := some c3AltQueue }

/-- Witness state for C3: the work-in-progress queue holds pending update
2; the alternate's queue already holds base update 0. -/
def c3State : PState :=
  { heap := c3Heap0,
    wip := { memoizedState := none, updateQueue := some c3WipQueue },
    alternate := some c3Alt }

/-- The queue q with its shared.pending pointer moved to update u, as
one enqueueUpdate call leaves it. -/
def pendQueue (q : UpdateQueue) (u : Nat) : UpdateQueue :=
  { q with shared := { q.shared with pending := some u } }

/-- The fiber f carrying queue q after one enqueueUpdate call moved
shared.pending to update u. -/
def pendFiber (f : Fiber) (q : UpdateQueue) (u : Nat) : Fiber :=
  { f with updateQueue := some (pendQueue q u) }

/-- A fresh queue for the C5 witness, with an empty pending ring. -/
def c5Queue0 : UpdateQueue :=
  { baseState := none, firstBaseUpdate := none, lastBaseUpdate := none,
    shared := { pending := none, lanes := 0 }, effects := none }

/-- A fiber for the C5 witness carrying the fresh queue. -/
def c5Fiber0 : Fiber :=
  { memoizedState := none, updateQueue := some c5Queue0 }

/-- Concrete arena for the spec example of C1: update 0 carries payload
(b, 2), update 1 carries payload (a, 3). -/
def c1Heap0 : Heap := fun i =>
  if i = 0 then { defUpdate with payload := some [(keyB, 2)] }
  else if i = 1 then { defUpdate with payload := some [(keyA, 3)] }
  else defUpdate

/-- A fresh queue over baseState (a, 1), as initializeUpdateQueue builds
it. -/
def c1Queue0 : UpdateQueue :=
  { baseState := some [(keyA, 1)], firstBaseUpdate := none,
    lastBaseUpdate := none, shared := { pending := none, lanes := 0 },
    effects := none }

/-- The heap and fiber of the C1 example after enqueueing updates 0 and 1. -/
def c1Pair : Heap × Fiber :=
  enqueueAll c1Heap0
    { memoizedState := some [(keyA, 1)], updateQueue := some c1Queue0 }
    [0, 1]

/-- The C1 example state: baseState (a, 1), enqueued payloads (b, 2) then
(a, 3), no alternate. -/
def c1State : PState :=
  { heap := c1Pair.1, wip := c1Pair.2, alternate := none }

/-- Concrete arena for C2: update 0 is an existing base-list update with
payload (x, 1); update 1 is a single pending update with payload (y, 2),
ring-linked to itself. -/
def c2Heap0 : Heap := fun i =>
  if i = 0 then { defUpdate with payload := some [(keyX, 1)] }
  else if i = 1 then { defUpdate with payload := some [(keyY, 2)], next := some 1 }
  else defUpdate

/-- The C2 example state: a queue whose base list already holds update 0
(firstBaseUpdate = lastBaseUpdate = 0) and whose pending ring holds
update 1. -/
def c2State : PState :=
  { heap := c2Heap0,
    wip :=
      { memoizedState := none,
        updateQueue := some
          { baseState := some [(keyX, 1)], firstBaseUpdate := some 0,
            lastBaseUpdate := some 0,
            shared := { pending := some 1, lanes := 0 }, effects := none } },
    alternate := none }

/-- The C4 counterexample state: a fiber whose updateQueue is null. -/
def c4State : PState :=
  { heap := fun _ => defUpdate,
    wip := { memoizedState := none, updateQueue := none },
    alternate := none }

/-- Lane constant of the source: the empty lane set. -/
def NoLanes : Nat := 0

/-- Lane constant of the source: the absent lane. -/
def NoLane : Nat := 0

/-- Lane constant: the synchronous lane is bit 0. -/
def SyncLane : Nat := 1

/-- Modelled from the spec: a representative lane of the
continuous-input band (ReactFiberLane is not under src/). -/
def InputContinuousLane : Nat := 4

/-- Modelled from the spec: a representative lane of the default band. -/
def DefaultLane : Nat := 16

/-- Modelled from the spec: a representative lane of the transition
band, below the blocking bands. -/
def TransitionLane1 : Nat := 64

/-- Modelled from the spec: a representative lane of the idle band. -/
def IdleLane : Nat := 536870912

/-- Modelled from the spec: mergeLanes is bitwise OR, pure, commutative
and associative (spec 4.1; ReactFiberLane is not under src/). -/
def mergeLanes (a b : Nat) : Nat := a ||| b

/-- Modelled from the spec: getHighestPriorityLane is the least
significant set bit of the lane set, NoLanes on the empty set (spec
4.1); on naturals this is lanes AND (lanes XOR (lanes - 1)). -/
def getHighestPriorityLane (lanes : Nat) : Nat :=
  lanes &&& (lanes ^^^ (lanes - 1))

/-- The work tag of the host root fiber.  Modelled from the spec:
ReactWorkTags is not under src/; only equality against it matters. -/
def HostRoot : Nat := 3

/-- Modelled from the spec: the discrete event priority, identified with
the sync lane (ReactEventPriorities is not under src/). -/
def DiscreteEventPriority : Nat := SyncLane

/-- Modelled from the spec: the continuous event priority. -/
def ContinuousEventPriority : Nat := InputContinuousLane

/-- Modelled from the spec: the default event priority. -/
def DefaultEventPriority : Nat := DefaultLane

/-- Modelled from the spec: the idle event priority. -/
def IdleEventPriority : Nat := IdleLane

/-- Modelled from the spec: the most urgent scheduler priority band. -/
def ImmediateSchedulerPriority : Nat := 1

/-- Modelled from the spec: the user-blocking scheduler priority band. -/
def UserBlockingSchedulerPriority : Nat := 2

/-- Modelled from the spec: the normal scheduler priority band. -/
def NormalSchedulerPriority : Nat := 3

/-- Modelled from the spec: the idle scheduler priority band. -/
def IdleSchedulerPriority : Nat := 5

/-- The FiberRoot fields this core touches (part_001).  current is
always a fiber index (the container always owns a committed tree);
finishedWork is nullable.  eventTimes records, per lane, the baseline
event time used for starvation checks. -/
structure Root where
  pendingLanes : Nat
  expiredLanes : Nat
  eventTimes : List (Nat × Nat)
  callbackNode : Option Nat
  callbackPriority : Nat
  current : Nat
  finishedWork : Option Nat
  finishedLanes : Nat
deriving DecidableEq

/-- Modelled from the spec: markRootUpdated adds the lane to
root.pendingLanes and records / refreshes its expiration baseline at
eventTime (spec 4.1; ReactFiberLane is not under src/). -/
def markRootUpdated (root : Root) (lane eventTime : Nat) : Root :=
  { root with
    pendingLanes := mergeLanes root.pendingLanes lane
    eventTimes := (lane, eventTime) :: root.eventTimes.filter (fun e => e.1 ≠ lane) }

/-- Modelled from the spec: the priority-specific starvation timeout,
collapsed to a single band here. -/
def laneTimeout : Nat := 250

/-- Modelled from the spec: the union of recorded lanes that are pending
and whose baseline has aged past the timeout. -/
def starvedMask (ets : List (Nat × Nat)) (pending now : Nat) : Nat :=
  ets.foldl
    (fun acc e =>
      if e.1 &&& pending ≠ 0 ∧ e.2 + laneTimeout ≤ now then acc ||| e.1 else acc)
    0

/-- Modelled from the spec: markStarvedLanesAsExpired promotes every
pending lane older than its timeout into the expired set; it touches no
callback bookkeeping (spec 4.1). -/
def markStarvedLanesAsExpired (root : Root) (now : Nat) : Root :=
  { root with
    expiredLanes := root.expiredLanes ||| starvedMask root.eventTimes root.pendingLanes now }

/-- Modelled from the spec: getNextLanes selects the lanes to work on
next from root.pendingLanes, preferring to continue a non-empty
in-progress render unless a strictly higher-priority lane has since
arrived (spec 4.1); empty pending lanes yield NoLanes. -/
def getNextLanes (root : Root) (wipLanes : Nat) : Nat :=
  if root.pendingLanes = 0 then 0
  else if wipLanes ≠ 0
      ∧ getHighestPriorityLane wipLanes ≤ getHighestPriorityLane root.pendingLanes then
    wipLanes
  else root.pendingLanes

/-- Modelled from the spec: markRootFinished clears from
root.pendingLanes every lane not present in remainingLanes (spec 4.1). -/
def markRootFinished (root : Root) (remainingLanes : Nat) : Root :=
  { root with pendingLanes := root.pendingLanes &&& remainingLanes }

/-- Modelled from the spec: includesBlockingLane tests the selected
lanes against the blocking bands (sync, continuous input, default). -/
def includesBlockingLane (root : Root) (lanes : Nat) : Bool :=
  (lanes &&& (SyncLane ||| InputContinuousLane ||| DefaultLane)) != 0

/-- Modelled from the spec: includesExpiredLane tests the selected lanes
against the root's expired set. -/
def includesExpiredLane (root : Root) (lanes : Nat) : Bool :=
  (lanes &&& root.expiredLanes) != 0

/-- Modelled from the spec: lanesToEventPriority maps the highest
selected lane to its event-priority band (spec 6). -/
def lanesToEventPriority (lanes : Nat) : Nat :=
  if getHighestPriorityLane lanes ≠ 0
      ∧ getHighestPriorityLane lanes ≤ DiscreteEventPriority then
    DiscreteEventPriority
  else if getHighestPriorityLane lanes ≠ 0
      ∧ getHighestPriorityLane lanes ≤ ContinuousEventPriority then
    ContinuousEventPriority
  else if getHighestPriorityLane lanes ≠ 0
      ∧ getHighestPriorityLane lanes ≤ DefaultEventPriority then
    DefaultEventPriority
  else IdleEventPriority

/-- Modelled from the spec: the cooperative-yield primitive.  tasks
holds the armed callbacks as (handle, priority band) pairs, cancelled
records cancelled handles, syncQueue counts scheduleSyncCallback
entries, microtasks counts scheduleMicrotask requests. -/
structure Sched where
  nextId : Nat
  tasks : List (Nat × Nat)
  cancelled : List Nat
  syncQueue : Nat
  microtasks : Nat
deriving DecidableEq

/-- Modelled from the spec: scheduleCallback arms a callback at a
priority band and returns its opaque handle. -/
def scheduleCallback (sc : Sched) (prio : Nat) : Sched × Nat :=
  ({ sc with
      nextId := sc.nextId + 1
      tasks := sc.tasks ++ [(sc.nextId, prio)] },
   sc.nextId)

/-- Modelled from the spec: cancelCallback marks the handle inert, so
running the dequeued task performs no work. -/
def cancelCallback (sc : Sched) (handle : Nat) : Sched :=
  { sc with
    tasks := sc.tasks.filter (fun t => t.1 ≠ handle)
    cancelled := sc.cancelled ++ [handle] }

/-- The guarded cancelCallback of the source: cancel only when the
existing handle is non-null. -/
def cancelIfSome (sc : Sched) (node : Option Nat) : Sched :=
  match node with
  | some handle => cancelCallback sc handle
  | none => sc

/-- Modelled from the spec: scheduleSyncCallback enqueues onto the
synchronous task queue (ReactFiberSyncTaskQueue is not under src/). -/
def scheduleSyncCallbackM (sc : Sched) : Sched :=
  { sc with syncQueue := sc.syncQueue + 1 }

/-- Modelled from the spec: scheduleMicrotask requests a microtask that
flushes the synchronous queue. -/
def scheduleMicrotaskM (sc : Sched) : Sched :=
  { sc with microtasks := sc.microtasks + 1 }

/-- The fiber-node fields the work-loop module touches.  ret models the
source's return field (a Lean keyword); stateNode is true on the host
root fiber carrying the FiberRoot (with one root per state this is a
flag). -/
structure FNode where
  tag : Nat
  lanes : Nat
  childLanes : Nat
  ret : Option Nat
  child : Option Nat
  sibling : Option Nat
  alternate : Option Nat
  stateNode : Bool
  pendingProps : Nat
  memoizedProps : Nat
deriving DecidableEq

/-- Arena of fiber nodes. -/
abbrev FHeap := Nat → FNode

/-- Merge a lane into the lanes field of one fiber. -/
def bumpLanes (h : FHeap) (i lane : Nat) : FHeap :=
  fun j => if j = i then { h j with lanes := mergeLanes (h j).lanes lane } else h j

/-- Merge a lane into the childLanes field of one fiber. -/
def bumpChildLanes (h : FHeap) (i lane : Nat) : FHeap :=
  fun j => if j = i then { h j with childLanes := mergeLanes (h j).childLanes lane } else h j

/-- Copy pendingProps into memoizedProps on one fiber, as
performUnitOfWork does after the begin step. -/
def syncProps (h : FHeap) (i : Nat) : FHeap :=
  fun j => if j = i then { h j with memoizedProps := (h j).pendingProps } else h j

/-- The per-ancestor body of the upward while loop of
markUpdateLaneFromFiberToRoot (part_001 lines 136-142): merge the lane
into the parent's childLanes and, when the parent has an alternate, into
the alternate's childLanes. -/
def markStep (lane : Nat) (h : FHeap) (parent : Nat) : FHeap :=
  let h1 := bumpChildLanes h parent lane
  match (h1 parent).alternate with
  | none => h1
  | some alt => bumpChildLanes h1 alt lane

/-- The upward while loop of markUpdateLaneFromFiberToRoot (part_001
lines 133-146), with bounded fuel: walk return links to the top,
applying markStep at each parent, and yield the final arena and the
topmost node reached. -/
def markLoopAux (lane : Nat) : Nat → FHeap → Nat → FHeap × Nat
  | 0, h, node => (h, node)
  | fuel + 1, h, node =>
    match (h node).ret with
    | none => (h, node)
    | some parent => markLoopAux lane fuel (markStep lane h parent) parent

/-- The initial merges of markUpdateLaneFromFiberToRoot (part_001 lines
124-130): the lane joins the source fiber's lanes and, when present, its
alternate's lanes. -/
def markSource (lane : Nat) (h : FHeap) (sourceFiber : Nat) : FHeap :=
  let h1 := bumpLanes h sourceFiber lane
  match (h1 sourceFiber).alternate with
  | none => h1
  | some alt => bumpLanes h1 alt lane

/-- Embedding of markUpdateLaneFromFiberToRoot (part_001 lines 119-152):
merge the lane downward into the source fiber (and alternate), walk the
return chain to the top merging childLanes, and return the FiberRoot
when the top node is a HostRoot (the source returns node.stateNode or
null; with a single root this is the stateNode flag). -/
def markUpdateLaneFromFiberToRoot (fuel : Nat) (h : FHeap)
    (sourceFiber lane : Nat) : FHeap × Bool :=
  let r := markLoopAux lane fuel (markSource lane h sourceFiber) sourceFiber
  if (r.1 r.2).tag = HostRoot then (r.1, (r.1 r.2).stateNode) else (r.1, false)

/-- The top of the return chain from a node, when it is reached within
the given fuel. -/
def topOf (h : FHeap) : Nat → Nat → Option Nat
  | 0, n =>
    match (h n).ret with
    | none => some n
    | some _ => none
  | fuel + 1, n =>
    match (h n).ret with
    | none => some n
    | some p => topOf h fuel p

/-- The proper ancestors of a node along return links, in walk order,
within the given fuel. -/
def retChainAux (h : FHeap) : Nat → Nat → List Nat
  | 0, _ => []
  | fuel + 1, n =>
    match (h n).ret with
    | none => []
    | some p => p :: retChainAux h fuel p

/-- The lane set x contains the whole of lane. -/
abbrev laneIn (lane x : Nat) : Prop := lane &&& x = lane

/-- The module state of the work-loop file: one root, the fiber arena, a
fresh-index counter for fiber allocation, the scheduler collaborator,
and the module-level pointers: wipRoot models workInProgressRoot (with
one root, a flag saying it is this root), wip models workInProgress,
wipRenderLanes models workInProgressRootRenderLanes, currentEventTime
uses none for NoTimestamp.  renderLog records the beginWork collaborator
calls; mutationLog records the commitMutationEffects collaborator calls
as (root.current observed at call time, finished tree). -/
structure GState where
  fheap : FHeap
  nextFiberId : Nat
  root : Root
  sched : Sched
  wipRoot : Bool
  wip : Option Nat
  wipRenderLanes : Nat
  subtreeRenderLanes : Nat
  currentEventTime : Option Nat
  renderLog : List Nat
  mutationLog : List (Nat × Nat)

/-- The scheduler-priority switch of ensureRootIsScheduled (part_001
lines 218-234). -/
def schedulerPriorityFor (eventPriority : Nat) : Nat :=
  if eventPriority = DiscreteEventPriority then ImmediateSchedulerPriority
  else if eventPriority = ContinuousEventPriority then UserBlockingSchedulerPriority
  else if eventPriority = DefaultEventPriority then NormalSchedulerPriority
  else if eventPriority = IdleEventPriority then IdleSchedulerPriority
  else NormalSchedulerPriority

/-- Embedding of ensureRootIsScheduled (part_001 lines 159-248): expire
starved lanes, compute nextLanes; empty nextLanes cancels any armed
callback and clears the callback slot; equal priority with the armed
callback returns unchanged; otherwise the armed callback is cancelled
and a new one armed, through the synchronous queue plus a microtask for
the sync lane (callbackNode null), through scheduleCallback at the
translated priority band otherwise. -/
def ensureRootIsScheduled (s : GState) (eventTime : Nat) : GState :=
  let existingCallbackNode := s.root.callbackNode
  let root1 := markStarvedLanesAsExpired s.root eventTime
  let nextLanes := getNextLanes root1 (if s.wipRoot then s.wipRenderLanes else NoLanes)
  if nextLanes = NoLanes then
    { s with
      root := { root1 with callbackNode := none, callbackPriority := NoLane }
      sched := cancelIfSome s.sched existingCallbackNode }
  else
    let newCallbackPriority := getHighestPriorityLane nextLanes
    if root1.callbackPriority = newCallbackPriority then
      { s with root := root1 }
    else
      let sched1 := cancelIfSome s.sched existingCallbackNode
      if newCallbackPriority = SyncLane then
        { s with
          root := { root1 with callbackNode := none, callbackPriority := newCallbackPriority }
          sched := scheduleMicrotaskM (scheduleSyncCallbackM sched1) }
      else
        let armed := scheduleCallback sched1
          (schedulerPriorityFor (lanesToEventPriority nextLanes))
        { s with
          root := { root1 with callbackNode := some armed.2, callbackPriority := newCallbackPriority }
          sched := armed.1 }

/-- Embedding of scheduleUpdateOnFiber (part_001 lines 97-114): walk to
the root merging lanes; when no root is found return null (false),
leaving the rest of the state untouched; otherwise mark the root updated
and ensure it is scheduled. -/
def scheduleUpdateOnFiber (fuel : Nat) (s : GState)
    (fiber lane eventTime : Nat) : GState × Bool :=
  let r := markUpdateLaneFromFiberToRoot fuel s.fheap fiber lane
  let s1 := { s with fheap := r.1 }
  if r.2 = false then (s1, false)
  else
    let s2 := { s1 with root := markRootUpdated s1.root lane eventTime }
    (ensureRootIsScheduled s2 eventTime, true)

/-- Modelled from the spec: createWorkInProgress of ReactFiber (not
under src/), the double-buffer allocation (spec 9): reuse the alternate
when it exists (refreshing pendingProps from current), otherwise
allocate a twin at a fresh index with cross alternate links. -/
def createWorkInProgress (s : GState) (current : Nat) : GState × Nat :=
  match (s.fheap current).alternate with
  | some a =>
    let h' : FHeap := fun j =>
      if j = a then { s.fheap j with pendingProps := (s.fheap current).pendingProps }
      else s.fheap j
    ({ s with fheap := h' }, a)
  | none =>
    let nid := s.nextFiberId
    let h' : FHeap := fun j =>
      if j = nid then { s.fheap current with alternate := some current }
      else if j = current then { s.fheap j with alternate := some nid }
      else s.fheap j
    ({ s with fheap := h', nextFiberId := nid + 1 }, nid)

/-- Embedding of prepareFreshStack (part_001 lines 318-327). -/
def prepareFreshStack (s : GState) (lanes : Nat) : GState :=
  let s1 := { s with root := { s.root with finishedWork := none, finishedLanes := NoLanes } }
  let s2 := { s1 with wipRoot := true }
  let r := createWorkInProgress s2 s2.root.current
  { r.1 with
    wip := some r.2
    wipRenderLanes := lanes
    subtreeRenderLanes := lanes }

/-- Modelled from the spec: the reconciliation collaborator's begin step
(spec 6) returns the first child to descend into or null; the call is
recorded in renderLog.  The current twin and active lanes the source
passes do not affect this model. -/
def beginWork (s : GState) (node : Nat) : GState × Option Nat :=
  ({ s with renderLog := s.renderLog ++ [node] }, (s.fheap node).child)

/-- Modelled from the spec: the reconciliation collaborator's complete
step (spec 6), yielding no alternative next node. -/
def completeWork (s : GState) (node : Nat) : GState × Option Nat :=
  (s, none)

/-- Embedding of completeUnitOfWork (part_001 lines 412-436), with
bounded fuel on the climb: complete the node; on no alternative next
node, move to the sibling when there is one, otherwise climb to the
parent and repeat; at the top the workInProgress pointer becomes null. -/
def completeUnitOfWork : Nat → GState → Nat → GState
  | 0, s, _ => s
  | fuel + 1, s, completedWork =>
    let r := completeWork s completedWork
    match r.2 with
    | some nxt => { r.1 with wip := some nxt }
    | none =>
      match (r.1.fheap completedWork).sibling with
      | some siblingFiber => { r.1 with wip := some siblingFiber }
      | none =>
        match (r.1.fheap completedWork).ret with
        | none => { r.1 with wip := none }
        | some parent => completeUnitOfWork fuel { r.1 with wip := some parent } parent

/-- Embedding of performUnitOfWork (part_001 lines 395-410): begin the
node, synchronize memoizedProps, then descend into the produced child or
fall through to completion. -/
def performUnitOfWork (fuel : Nat) (s : GState) (unitOfWork : Nat) : GState :=
  let r := beginWork s unitOfWork
  let s1 := { r.1 with fheap := syncProps r.1.fheap unitOfWork }
  match r.2 with
  | none => completeUnitOfWork fuel s1 unitOfWork
  | some nxt => { s1 with wip := some nxt }

/-- Embedding of workLoopSync (part_001 lines 383-389), with bounded
fuel: process units of work while the workInProgress pointer is
non-null, without yield checks. -/
def workLoopSync : Nat → GState → GState
  | 0, s => s
  | fuel + 1, s =>
    match s.wip with
    | none => s
    | some u => workLoopSync fuel (performUnitOfWork fuel s u)

/-- Embedding of renderRootSync (part_001 lines 302-312). -/
def renderRootSync (fuel : Nat) (s : GState) (lanes : Nat) : GState :=
  let s1 :=
    if s.wipRoot = true ∧ s.wipRenderLanes = lanes then s
    else prepareFreshStack s lanes
  let s2 := workLoopSync fuel s1
  { s2 with
    wipRoot := false
    wipRenderLanes := NoLanes }

/-- Embedding of renderRootConcurrent (part_001 line 296): the source's
function body is empty, so the state passes through unchanged. -/
def renderRootConcurrent (s : GState) : GState := s

/-- Embedding of commitRootImpl (part_001 lines 345-378): null
finishedWork returns unchanged; otherwise detach finishedWork and
finishedLanes, clear the callback slot, compute remainingLanes as the
union of the finished tree's lanes and childLanes and report it to
markRootFinished, clear the module-level work pointers, invoke the
commitMutationEffects collaborator (recorded with the root.current it
observes), and only then publish root.current = finishedWork. -/
def commitRootImpl (s : GState) : GState :=
  match s.root.finishedWork with
  | none => s
  | some finishedWork =>
    let root1 :=
      { s.root with
        finishedWork := none
        finishedLanes := NoLanes
        callbackNode := none
        callbackPriority := NoLane }
    let remainingLanes :=
      mergeLanes (s.fheap finishedWork).lanes (s.fheap finishedWork).childLanes
    let root2 := markRootFinished root1 remainingLanes
    let s1 := { s with root := root2, wipRoot := false, wip := none }
    let s2 := { s1 with mutationLog := s1.mutationLog ++ [(s1.root.current, finishedWork)] }
    { s2 with root := { s2.root with current := finishedWork } }

/-- Embedding of commitRoot (part_001 lines 341-343). -/
def commitRoot (s : GState) : GState := commitRootImpl s

/-- Embedding of finishConcurrentRender (part_001 lines 333-335). -/
def finishConcurrentRender (s : GState) : GState := commitRoot s

/-- The time-slicing decision of performConcurrentWorkOnRoot (part_001
lines 286-289): no blocking lane, no expired lane, and no forced
timeout. -/
def shouldTimeSliceB (root : Root) (lanes : Nat) (didTimeout : Bool) : Bool :=
  !includesBlockingLane root lanes && !includesExpiredLane root lanes && !didTimeout

/-- Embedding of performConcurrentWorkOnRoot (part_001 lines 270-294):
clear currentEventTime, recompute the lanes, return on empty lanes,
decide time slicing, render through renderRootConcurrent or
renderRootSync, record root.current.alternate as finishedWork, and
finish into the commit. -/
def performConcurrentWorkOnRoot (fuel : Nat) (s : GState) (didTimeout : Bool) : GState :=
  let s0 := { s with currentEventTime := none }
  let lanes := getNextLanes s0.root (if s0.wipRoot then s0.wipRenderLanes else NoLanes)
  if lanes = NoLanes then s0
  else
    let s1 :=
      if shouldTimeSliceB s0.root lanes didTimeout then renderRootConcurrent s0
      else renderRootSync fuel s0 lanes
    let finishedWork := (s1.fheap s1.root.current).alternate
    let s2 := { s1 with root := { s1.root with finishedWork := finishedWork } }
    finishConcurrentRender s2

/-- A blank fiber node. -/
def defFNode : FNode :=
  { tag := 0, lanes := 0, childLanes := 0, ret := none, child := none,
    sibling := none, alternate := none, stateNode := false,
    pendingProps := 0, memoizedProps := 0 }

/-- An idle scheduler holding one armed task with handle 3. -/
def sched0 : Sched :=
  { nextId := 10, tasks := [(3, NormalSchedulerPriority)], cancelled := [],
    syncQueue := 0, microtasks := 0 }

/-- A root with pending DefaultLane work and a callback already armed at
that priority (handle 3). -/
def c6Root : Root :=
  { pendingLanes := DefaultLane, expiredLanes := 0, eventTimes := [],
    callbackNode := some 3, callbackPriority := DefaultLane,
    current := 0, finishedWork := none, finishedLanes := 0 }

/-- Witness state for C6: same-priority work already armed. -/
def c6State : GState :=
  { fheap := fun _ => defFNode, nextFiberId := 100, root := c6Root,
    sched := sched0, wipRoot := false, wip := none, wipRenderLanes := 0,
    subtreeRenderLanes := 0, currentEventTime := none, renderLog := [],
    mutationLog := [] }

/-- A root with a finished tree at fiber 2 and leftover lanes on it. -/
def c7Root : Root :=
  { pendingLanes := 80, expiredLanes := 0, eventTimes := [],
    callbackNode := some 3, callbackPriority := DefaultLane,
    current := 0, finishedWork := some 2, finishedLanes := 16 }

/-- Witness state for C7: fiber 2 is the finished tree, carrying lanes
64 and childLanes 0. -/
def c7State : GState :=
  { fheap := fun i => if i = 2 then { defFNode with lanes := 64 } else defFNode,
    nextFiberId := 100, root := c7Root, sched := sched0, wipRoot := true,
    wip := some 4, wipRenderLanes := 64, subtreeRenderLanes := 64,
    currentEventTime := none, renderLog := [], mutationLog := [] }

/-- A root with no pending lanes but a stale armed callback (handle 3). -/
def c8Root : Root :=
  { pendingLanes := 0, expiredLanes := 0, eventTimes := [],
    callbackNode := some 3, callbackPriority := DefaultLane,
    current := 0, finishedWork := none, finishedLanes := 0 }

/-- Witness state for C8: nothing to do, stale callback armed. -/
def c8State : GState :=
  { fheap := fun _ => defFNode, nextFiberId := 100, root := c8Root,
    sched := sched0, wipRoot := false, wip := none, wipRenderLanes := 0,
    subtreeRenderLanes := 0, currentEventTime := none, renderLog := [],
    mutationLog := [] }

/-- Fiber arena for C9: fiber 0 is the host root's current tree with
alternate 1; fiber 1 is the stale alternate. -/
def c9Heap : FHeap := fun i =>
  if i = 0 then { defFNode with tag := 3, alternate := some 1, stateNode := true }
  else defFNode

/-- A root with pending transition-band work only (lane 64), nothing
expired. -/
def c9Root : Root :=
  { pendingLanes := TransitionLane1, expiredLanes := 0, eventTimes := [],
    callbackNode := some 3, callbackPriority := TransitionLane1,
    current := 0, finishedWork := none, finishedLanes := 0 }

/-- Input state for C9: transition work selected, all three slicing
conditions hold, and a saved workInProgress pointer exists (fiber 5). -/
def c9State : GState :=
  { fheap := c9Heap, nextFiberId := 100, root := c9Root, sched := sched0,
    wipRoot := false, wip := some 5, wipRenderLanes := 0,
    subtreeRenderLanes := 0, currentEventTime := some 7, renderLog := [],
    mutationLog := [] }

/-- Fiber arena for C10: fiber 0's return chain ends at fiber 1, whose
tag is not HostRoot (a detached subtree). -/
def c10Heap : FHeap := fun i =>
  if i = 0 then { defFNode with ret := some 1 }
  else if i = 1 then { defFNode with tag := 7 }
  else defFNode

/-- Witness state for C10: scheduling an update on detached fiber 0. -/
def c10State : GState :=
  { fheap := c10Heap, nextFiberId := 100, root := c6Root, sched := sched0,
    wipRoot := false, wip := none, wipRenderLanes := 0,
    subtreeRenderLanes := 0, currentEventTime := none, renderLog := [],
    mutationLog := [] }

end SReact

namespace SReact

/-- C1: the claim states that processUpdateQueue folds every enqueued
update in insertion order, and that baseState (a, 1) with enqueued merge
payloads (b, 2) then (a, 3) yields memoized state (a, 3) (b, 2).  The
source folds only the first update of the base list (its TODO comment at
part_000 line 161 flags the missing loop): at this exact input the
memoized state keeps a = 1, gains b = 2, never sees a = 3, and the
second update is dropped from the queue (firstBaseUpdate comes back
null), so the second update is skipped. -/
theorem c1_single_update_fold_eval :
    memoLookup (processUpdateQueue c1State) keyA = some 1
    ∧ memoLookup (processUpdateQueue c1State) keyB = some 2
    ∧ ¬ memoLookup (processUpdateQueue c1State) keyA = some 3
    ∧ queueFirstOf (processUpdateQueue c1State) = some none := by
  decide

/-- C2: the claim states that a non-null pending ring is cut open and
spliced onto the tail of the existing base list, lastBaseUpdate becoming
the old pending tail.  With a non-empty base list the source instead
executes firstBaseUpdate = lastBaseUpdate.next (reading the null link of
the old base tail) rather than lastBaseUpdate.next = firstPendingUpdate:
at this input the ring is cut and pending cleared, but the base list is
left unchanged (first and last still update 0), lastBaseUpdate is not
the pending tail (update 1), the fold is skipped and the pending update
is dropped from the queue. -/
theorem c2_splice_bug_eval :
    pendingOfRes (processUpdateQueue c2State) = some none
    ∧ heapNextOf (processUpdateQueue c2State) 1 = some none
    ∧ queueFirstOf (processUpdateQueue c2State) = some (some 0)
    ∧ queueLastOf (processUpdateQueue c2State) = some (some 0)
    ∧ ¬ queueLastOf (processUpdateQueue c2State) = some (some 1)
    ∧ memoOf (processUpdateQueue c2State) = some none := by
  decide

/-- C4 counterexample: the claim states that processUpdateQueue on a node
with an absent (null) updateQueue never fails and is a no-op.  The source
dereferences the queue unconditionally (part_000 line 107), so at a
fiber with a null queue the call raises a TypeError, modelled as an
error, instead of succeeding unchanged. -/
theorem c4_null_queue_counterexample :
    processUpdateQueue c4State = Except.error PErr.nullQueue := by
  rfl

/-- C4 amended: calling processUpdateQueue on a node whose updateQueue is
absent always fails with the null-queue TypeError (the missing-queue
guard of the module lives in enqueueUpdate only); it is not a no-op. -/
theorem c4_null_queue_always_fails (s : PState)
    (h : s.wip.updateQueue = none) :
    processUpdateQueue s = Except.error PErr.nullQueue := by
  unfold processUpdateQueue
  rw [h]

/-- Witness for the amended C4 theorem at the concrete null-queue fiber. -/
theorem c4_null_queue_always_fails_witness :
    c4State.wip.updateQueue = none
    ∧ processUpdateQueue c4State = Except.error PErr.nullQueue :=
  ⟨by rfl, c4_null_queue_always_fails c4State (by rfl)⟩

/-- The fold half of processUpdateQueue only rewrites the
work-in-progress fiber; the alternate passes through unchanged. -/
theorem processQueueFold_alternate (h : Heap) (alt : Option Fiber)
    (q : UpdateQueue) (fb : Option Nat) (m : StateV) :
    (processQueueFold h alt q fb m).alternate = alt := by
  cases fb <;> rfl

/-- The fold half of processUpdateQueue performs no arena writes. -/
theorem processQueueFold_heap (h : Heap) (alt : Option Fiber)
    (q : UpdateQueue) (fb : Option Nat) (m : StateV) :
    (processQueueFold h alt q fb m).heap = h := by
  cases fb <;> rfl

/-- C3: during processUpdateQueue, when the node has an alternate whose
queue's lastBaseUpdate differs from this node's lastBaseUpdate at splice
time (the detached pending tail), the same newly detached pending list
(head = the old link of the pending tail, tail = the pending tail, whose
link is nulled by the cut) is appended onto the alternate's base list:
its firstBaseUpdate is set to the pending head when its base list was
empty, otherwise the pending head is linked after its old lastBaseUpdate
and its firstBaseUpdate is untouched, and its lastBaseUpdate becomes the
pending tail. -/
theorem c3_alternate_splice (s : PState) (q cq : UpdateQueue)
    (cur : Fiber) (lp : Nat)
    (hq : s.wip.updateQueue = some q)
    (hp : q.shared.pending = some lp)
    (ha : s.alternate = some cur)
    (hcq : cur.updateQueue = some cq)
    (hne : cq.lastBaseUpdate ≠ some lp) :
    altLastOf (processUpdateQueue s) = some lp
    ∧ heapNextOf (processUpdateQueue s) lp = some none
    ∧ (cq.lastBaseUpdate = none →
        altFirstOf (processUpdateQueue s) = some ((s.heap lp).next))
    ∧ (∀ c, cq.lastBaseUpdate = some c →
        altFirstOf (processUpdateQueue s) = some cq.firstBaseUpdate
        ∧ heapNextOf (processUpdateQueue s) c = some ((s.heap lp).next)) := by
  cases hl : cq.lastBaseUpdate with
  | none =>
    simp only [processUpdateQueue, hq, hp, ha, hcq, hl]
    rw [if_neg (by simp)]
    refine ⟨?_, ?_, ?_, ?_⟩
    · simp [altLastOf, processQueueFold_alternate]
    · simp [heapNextOf, processQueueFold_heap, setNext]
    · intro _
      simp [altFirstOf, processQueueFold_alternate]
    · intro c hc
      cases hc
  | some c =>
    have hclp : ¬ c = lp := fun e => hne (by rw [hl, e])
    have hlpc : ¬ lp = c := fun e => hclp e.symm
    simp only [processUpdateQueue, hq, hp, ha, hcq, hl]
    rw [if_neg (by simpa using hclp)]
    refine ⟨?_, ?_, ?_, ?_⟩
    · simp [altLastOf, processQueueFold_alternate]
    · simp [heapNextOf, processQueueFold_heap, setNext, hlpc]
    · intro hnone
      cases hnone
    · intro c' hc'
      obtain rfl : c' = c := by cases hc'; rfl
      constructor
      · simp [altFirstOf, processQueueFold_alternate]
      · simp [heapNextOf, processQueueFold_heap, setNext]

/-- Witness for C3 at the concrete state: alternate base list holding
update 0, pending ring holding update 2. -/
theorem c3_alternate_splice_witness :
    (c3AltQueue.lastBaseUpdate ≠ some 2)
    ∧ (altLastOf (processUpdateQueue c3State) = some 2
       ∧ heapNextOf (processUpdateQueue c3State) 2 = some none
       ∧ (c3AltQueue.lastBaseUpdate = none →
           altFirstOf (processUpdateQueue c3State) = some ((c3State.heap 2).next))
       ∧ (∀ c, c3AltQueue.lastBaseUpdate = some c →
           altFirstOf (processUpdateQueue c3State) = some c3AltQueue.firstBaseUpdate
           ∧ heapNextOf (processUpdateQueue c3State) c = some ((c3State.heap 2).next))) :=
  ⟨by decide,
   c3_alternate_splice c3State c3WipQueue c3AltQueue c3Alt 2
     rfl rfl rfl rfl (by decide)⟩

/-- A non-empty list has a last element. -/
theorem getLast?_of_ne_nil {α : Type _} :
    ∀ (l : List α), l ≠ [] → ∃ p, l.getLast? = some p
  | [], hne => absurd rfl hne
  | [a], _ => ⟨a, rfl⟩
  | a :: b :: t, _ => by
    obtain ⟨p, hp⟩ := getLast?_of_ne_nil (b :: t) (by simp)
    exact ⟨p, by simpa using hp⟩

/-- In a chain closing at closeTo, the last listed update links to
closeTo. -/
theorem chainLinksB_last (h : Heap) (c : Nat) :
    ∀ (us : List Nat) (p : Nat), chainLinksB h c us = true →
      us.getLast? = some p → (h p).next = some c
  | [], p => by
    intro _ hl
    simp at hl
  | [x], p => by
    intro hc hl
    have hx : x = p := by simpa using hl
    subst hx
    simpa [chainLinksB] using hc
  | x :: y :: rest, p => by
    intro hc hl
    simp only [chainLinksB, Bool.and_eq_true] at hc
    exact chainLinksB_last h c (y :: rest) p hc.2 (by simpa using hl)

/-- Appending a fresh update after the tail of a closed chain, while
pointing it at the old head, extends the chain by one and keeps it
closed: this is one enqueueUpdate step on a non-empty ring. -/
theorem chainLinksB_snoc (head u : Nat) :
    ∀ (us : List Nat) (h : Heap) (p : Nat),
      chainLinksB h head us = true → us.Nodup → us.getLast? = some p →
      u ∉ us →
      chainLinksB (setNext (setNext h u (some head)) p (some u)) head
        (us ++ [u]) = true
  | [], _, _ => by
    intro _ _ hl _
    simp at hl
  | [x], h, p => by
    intro hc hnd hl hu
    have hx : x = p := by simpa using hl
    subst hx
    have hux : ¬ u = x := by simpa using hu
    simp [chainLinksB, setNext, hux]
  | x :: y :: rest, h, p => by
    intro hc hnd hl hu
    simp only [chainLinksB, Bool.and_eq_true, beq_iff_eq] at hc
    obtain ⟨hxy, hc2⟩ := hc
    have hl2 : (y :: rest).getLast? = some p := by simpa using hl
    have hpmem : p ∈ y :: rest :=
      List.mem_of_mem_getLast? (Option.mem_def.mpr hl2)
    have hnd2 : (y :: rest).Nodup := (List.nodup_cons.mp hnd).2
    have hxny : x ∉ y :: rest := (List.nodup_cons.mp hnd).1
    have hxp : ¬ x = p := fun e => hxny (e ▸ hpmem)
    have hu2 : u ∉ y :: rest := fun m => hu (List.mem_cons_of_mem _ m)
    have hux : ¬ x = u := fun e => hu (e ▸ List.mem_cons_self _ _)
    have IH := chainLinksB_snoc head u (y :: rest) h p hc2 hnd2 hl2 hu2
    have hx2 :
        (setNext (setNext h u (some head)) p (some u) x).next = some y := by
      simp [setNext, hxp, hux, hxy]
    show chainLinksB _ head (x :: ((y :: rest) ++ [u])) = true
    simp only [List.cons_append, chainLinksB, Bool.and_eq_true, beq_iff_eq]
    exact ⟨by simpa [List.cons_append] using hx2, by simpa [List.cons_append] using IH⟩

/-- Walking from the head of a closed chain visits exactly its elements,
in order. -/
theorem chainLinksB_walkFrom :
    ∀ (us : List Nat) (h : Heap) (c x : Nat),
      chainLinksB h c (x :: us) = true →
      walkFrom h x (us.length + 1) = x :: us
  | [], h, c, x => by
    intro _
    cases hnx : (h x).next <;> simp [walkFrom, hnx]
  | y :: rest, h, c, x => by
    intro hc
    simp only [chainLinksB, Bool.and_eq_true, beq_iff_eq] at hc
    obtain ⟨hxy, hc2⟩ := hc
    have IH := chainLinksB_walkFrom rest h c y hc2
    have hunf : walkFrom h x ((y :: rest).length + 1)
        = x :: walkFrom h y (rest.length + 1) := by
      simp only [List.length_cons, walkFrom, hxy]
    calc walkFrom h x ((y :: rest).length + 1)
        = x :: walkFrom h y (rest.length + 1) := hunf
      _ = x :: (y :: rest) := by rw [IH]

/-- Enqueueing a list of fresh distinct updates onto a fiber whose shared
queue already holds a closed ring extends the ring by those updates in
order, keeps it closed at the original head, and leaves shared.pending on
the most recently appended update. -/
theorem enqueueAll_ring_aux :
    ∀ (us : List Nat) (h : Heap) (f : Fiber) (q : UpdateQueue)
      (ring : List Nat),
      f.updateQueue = some q → q.shared.pending = ring.getLast? →
      ring ≠ [] → chainLinksB h (ring.headD 0) ring = true →
      (ring ++ us).Nodup →
      pendingOf (enqueueAll h f us).2 = (ring ++ us).getLast?
      ∧ chainLinksB (enqueueAll h f us).1 (ring.headD 0) (ring ++ us) = true
  | [], h, f, q, ring => by
    intro hq hp _ hc _
    refine ⟨?_, by simpa using hc⟩
    simp [enqueueAll, pendingOf, hq, hp]
  | u :: us', h, f, q, ring => by
    intro hq hp hne hc hnd
    obtain ⟨p, hlast⟩ := getLast?_of_ne_nil ring hne
    have hpend : q.shared.pending = some p := hp.trans hlast
    have hnext : (h p).next = some (ring.headD 0) :=
      chainLinksB_last h (ring.headD 0) ring p hc hlast
    have hndsplit := List.nodup_append.mp (by simpa using hnd)
    have hndring : ring.Nodup := hndsplit.1
    have humem : u ∉ ring := fun m =>
      hndsplit.2.2 m (List.mem_cons_self _ _)
    have hchain :
        chainLinksB (setNext (setNext h u (some (ring.headD 0))) p (some u))
          (ring.headD 0) (ring ++ [u]) = true :=
      chainLinksB_snoc (ring.headD 0) u ring h p hc hndring hlast humem
    have hstep :
        enqueueUpdate h f u =
          (setNext (setNext h u (some (ring.headD 0))) p (some u),
           pendFiber f q u) := by
      simp [enqueueUpdate, hq, hpend, hnext, pendFiber, pendQueue]
    have hhead : (ring ++ [u]).headD 0 = ring.headD 0 := by
      cases ring with
      | nil => exact absurd rfl hne
      | cons a as => rfl
    have IH := enqueueAll_ring_aux us'
      (setNext (setNext h u (some (ring.headD 0))) p (some u))
      (pendFiber f q u) (pendQueue q u)
      (ring ++ [u]) rfl (by simp [pendQueue, List.getLast?_concat]) (by simp)
      (by rw [hhead]; exact hchain)
      (by simpa [List.append_assoc] using hnd)
    have hunfold :
        enqueueAll h f (u :: us') =
          enqueueAll (enqueueUpdate h f u).1 (enqueueUpdate h f u).2 us' := rfl
    rw [hunfold, hstep]
    refine ⟨?_, ?_⟩
    · rw [IH.1]
      simp [List.append_assoc]
    · have := IH.2
      rw [hhead] at this
      simpa [List.append_assoc] using this

/-- C5: after any sequence of enqueueUpdate calls of fresh distinct
updates on a node with a queue whose pending ring starts empty,
shared.pending points at the most recently appended update, the chain of
next links joins the enqueued updates in insertion order and closes back
at the oldest one (tail.next = head), walking the ring from the oldest
update visits all enqueued updates in insertion order, and the next link
of the update shared.pending designates is the oldest update. -/
theorem c5_pending_ring (h : Heap) (f : Fiber) (q : UpdateQueue)
    (v : Nat) (vs : List Nat)
    (hq : f.updateQueue = some q)
    (hp : q.shared.pending = none)
    (hnd : (v :: vs).Nodup) :
    pendingOf (enqueueAll h f (v :: vs)).2 = (v :: vs).getLast?
    ∧ chainLinksB (enqueueAll h f (v :: vs)).1 v (v :: vs) = true
    ∧ walkFrom (enqueueAll h f (v :: vs)).1 v (vs.length + 1) = v :: vs
    ∧ ∀ p, (v :: vs).getLast? = some p →
        ((enqueueAll h f (v :: vs)).1 p).next = some v := by
  have hstep :
      enqueueUpdate h f v = (setNext h v (some v), pendFiber f q v) := by
    simp [enqueueUpdate, hq, hp, pendFiber, pendQueue]
  have hbase : chainLinksB (setNext h v (some v)) v [v] = true := by
    simp [chainLinksB, setNext]
  have H := enqueueAll_ring_aux vs (setNext h v (some v))
    (pendFiber f q v) (pendQueue q v)
    [v] rfl rfl (by simp) hbase (by simpa using hnd)
  have hunfold :
      enqueueAll h f (v :: vs) =
        enqueueAll (enqueueUpdate h f v).1 (enqueueUpdate h f v).2 vs := rfl
  rw [hunfold, hstep]
  have h1 := H.1
  have h2 := H.2
  simp only [List.singleton_append, List.headD_cons] at h1 h2
  refine ⟨h1, h2, chainLinksB_walkFrom vs _ v v h2, ?_⟩
  intro p hpl
  exact chainLinksB_last _ v (v :: vs) p h2 hpl

/-- Expiring starved lanes leaves pendingLanes untouched, so the lane
selection it feeds is that of the original root. -/
theorem getNextLanes_markStarved (r : Root) (t w : Nat) :
    getNextLanes (markStarvedLanesAsExpired r t) w = getNextLanes r w := rfl

/-- Expiring starved lanes leaves the armed-callback priority untouched. -/
theorem markStarved_callbackPriority (r : Root) (t : Nat) :
    (markStarvedLanesAsExpired r t).callbackPriority = r.callbackPriority := rfl

/-- C6: when the computed nextLanes is non-empty and its highest-priority
lane equals the root's already-recorded callbackPriority,
ensureRootIsScheduled returns without cancelling the existing callback
and without arming a new one (the scheduler state is untouched), and
root.callbackNode and root.callbackPriority are unchanged — so repeated
scheduleUpdateOnFiber calls at the same lane keep the single armed
callback. -/
theorem c6_equal_priority_coalesces (s : GState) (t : Nat)
    (h0 : getNextLanes s.root (if s.wipRoot then s.wipRenderLanes else NoLanes) ≠ NoLanes)
    (h1 : getHighestPriorityLane
        (getNextLanes s.root (if s.wipRoot then s.wipRenderLanes else NoLanes))
        = s.root.callbackPriority) :
    (ensureRootIsScheduled s t).root.callbackNode = s.root.callbackNode
    ∧ (ensureRootIsScheduled s t).root.callbackPriority = s.root.callbackPriority
    ∧ (ensureRootIsScheduled s t).sched = s.sched := by
  simp only [ensureRootIsScheduled, getNextLanes_markStarved,
    markStarved_callbackPriority]
  rw [if_neg h0, if_pos h1.symm]
  exact ⟨rfl, rfl, rfl⟩

/-- Witness for C6: a root with pending DefaultLane work and a callback
already armed at DefaultLane priority. -/
theorem c6_equal_priority_coalesces_witness :
    getNextLanes c6State.root
        (if c6State.wipRoot then c6State.wipRenderLanes else NoLanes) ≠ NoLanes
    ∧ getHighestPriorityLane
        (getNextLanes c6State.root
          (if c6State.wipRoot then c6State.wipRenderLanes else NoLanes))
        = c6State.root.callbackPriority
    ∧ ((ensureRootIsScheduled c6State 1000).root.callbackNode
          = c6State.root.callbackNode
       ∧ (ensureRootIsScheduled c6State 1000).root.callbackPriority
          = c6State.root.callbackPriority
       ∧ (ensureRootIsScheduled c6State 1000).sched = c6State.sched) :=
  ⟨by decide, by decide,
   c6_equal_priority_coalesces c6State 1000 (by decide) (by decide)⟩

/-- C8: when the computed nextLanes is empty, ensureRootIsScheduled
short-circuits: it cancels the existing callback when callbackNode is
non-null (and touches the scheduler in no other way, arming nothing —
its task counter is unchanged), sets root.callbackNode to null and
root.callbackPriority to NoLane, and returns without starting a render. -/
theorem c8_no_lanes_short_circuit (s : GState) (t : Nat)
    (h0 : getNextLanes s.root (if s.wipRoot then s.wipRenderLanes else NoLanes)
        = NoLanes) :
    (ensureRootIsScheduled s t).root.callbackNode = none
    ∧ (ensureRootIsScheduled s t).root.callbackPriority = NoLane
    ∧ (ensureRootIsScheduled s t).sched = cancelIfSome s.sched s.root.callbackNode
    ∧ (ensureRootIsScheduled s t).sched.nextId = s.sched.nextId := by
  simp only [ensureRootIsScheduled, getNextLanes_markStarved]
  rw [if_pos h0]
  refine ⟨rfl, rfl, rfl, ?_⟩
  cases hn : s.root.callbackNode <;> simp [cancelIfSome, cancelCallback, hn]

/-- Witness for C8: a root with no pending lanes but a stale armed
callback with handle 3. -/
theorem c8_no_lanes_short_circuit_witness :
    getNextLanes c8State.root
        (if c8State.wipRoot then c8State.wipRenderLanes else NoLanes) = NoLanes
    ∧ ((ensureRootIsScheduled c8State 1000).root.callbackNode = none
       ∧ (ensureRootIsScheduled c8State 1000).root.callbackPriority = NoLane
       ∧ (ensureRootIsScheduled c8State 1000).sched
          = cancelIfSome c8State.sched c8State.root.callbackNode
       ∧ (ensureRootIsScheduled c8State 1000).sched.nextId
          = c8State.sched.nextId) :=
  ⟨by decide, c8_no_lanes_short_circuit c8State 1000 (by decide)⟩

/-- C7: when root.finishedWork is non-null, commitRootImpl reports
remainingLanes = finishedWork.lanes OR finishedWork.childLanes to
markRootFinished (pendingLanes keeps exactly the remaining lanes),
clears the armed-callback slot and the module-level work-in-progress
pointers, invokes commitMutationEffects while root.current is still the
old tree (the collaborator log records the old current), and only as its
final step publishes root.current = finishedWork, detaching
finishedWork. -/
theorem c7_commit_order (s : GState) (fw : Nat)
    (h : s.root.finishedWork = some fw) :
    (commitRootImpl s).root.current = fw
    ∧ (commitRootImpl s).root.pendingLanes
        = s.root.pendingLanes &&& mergeLanes (s.fheap fw).lanes (s.fheap fw).childLanes
    ∧ (commitRootImpl s).root.callbackNode = none
    ∧ (commitRootImpl s).root.callbackPriority = NoLane
    ∧ (commitRootImpl s).wipRoot = false
    ∧ (commitRootImpl s).wip = none
    ∧ (commitRootImpl s).mutationLog = s.mutationLog ++ [(s.root.current, fw)]
    ∧ (commitRootImpl s).root.finishedWork = none := by
  simp only [commitRootImpl, h]
  refine ⟨?_, ?_, ?_, ?_, ?_, ?_, ?_, ?_⟩ <;> first | rfl | trivial

/-- Witness for C7: a root whose finished tree is fiber 2 with lanes 64. -/
theorem c7_commit_order_witness :
    c7State.root.finishedWork = some 2
    ∧ ((commitRootImpl c7State).root.current = 2
       ∧ (commitRootImpl c7State).root.pendingLanes
          = c7State.root.pendingLanes
            &&& mergeLanes (c7State.fheap 2).lanes (c7State.fheap 2).childLanes
       ∧ (commitRootImpl c7State).root.callbackNode = none
       ∧ (commitRootImpl c7State).root.callbackPriority = NoLane
       ∧ (commitRootImpl c7State).wipRoot = false
       ∧ (commitRootImpl c7State).wip = none
       ∧ (commitRootImpl c7State).mutationLog
          = c7State.mutationLog ++ [(c7State.root.current, 2)]
       ∧ (commitRootImpl c7State).root.finishedWork = none) :=
  ⟨rfl, c7_commit_order c7State 2 rfl⟩

/-- C9: the claim states that when no blocking lane, no expired lane and
no forced timeout hold, performConcurrentWorkOnRoot runs the yielding
concurrent render loop from the saved workInProgress pointer.  The
decision predicate is exactly those three conditions, but the source's
renderRootConcurrent has an empty body: at this input all three
conditions hold and the saved workInProgress is fiber 5, yet no
reconciliation step runs (the begin-step log stays empty), the
workInProgress pointer is not resumed (the commit clears it), and the
stale alternate (fiber 1) is committed as root.current. -/
theorem c9_concurrent_stub_eval :
    shouldTimeSliceB c9State.root TransitionLane1 false = true
    ∧ getNextLanes c9State.root NoLanes = TransitionLane1
    ∧ c9State.wip = some 5
    ∧ (performConcurrentWorkOnRoot 9 c9State false).renderLog = []
    ∧ (performConcurrentWorkOnRoot 9 c9State false).wip = none
    ∧ (performConcurrentWorkOnRoot 9 c9State false).root.current = 1
    ∧ (performConcurrentWorkOnRoot 9 c9State false).mutationLog = [(0, 1)] := by
  decide

/-- Merging a lane into the lanes of one fiber preserves every ret
field. -/
theorem bumpLanes_ret (h : FHeap) (i lane j : Nat) :
    ((bumpLanes h i lane) j).ret = (h j).ret := by
  by_cases e : j = i <;> simp [bumpLanes, e]

/-- Merging a lane into the lanes of one fiber preserves every tag
field. -/
theorem bumpLanes_tag (h : FHeap) (i lane j : Nat) :
    ((bumpLanes h i lane) j).tag = (h j).tag := by
  by_cases e : j = i <;> simp [bumpLanes, e]

/-- Merging a lane into the childLanes of one fiber preserves every ret
field. -/
theorem bumpChildLanes_ret (h : FHeap) (i lane j : Nat) :
    ((bumpChildLanes h i lane) j).ret = (h j).ret := by
  by_cases e : j = i <;> simp [bumpChildLanes, e]

/-- Merging a lane into the childLanes of one fiber preserves every tag
field. -/
theorem bumpChildLanes_tag (h : FHeap) (i lane j : Nat) :
    ((bumpChildLanes h i lane) j).tag = (h j).tag := by
  by_cases e : j = i <;> simp [bumpChildLanes, e]

/-- Merging a lane into the childLanes of one fiber preserves every
lanes field. -/
theorem bumpChildLanes_lanes (h : FHeap) (i lane j : Nat) :
    ((bumpChildLanes h i lane) j).lanes = (h j).lanes := by
  by_cases e : j = i <;> simp [bumpChildLanes, e]

/-- A lane is wholly contained in any union that includes it. -/
theorem land_lor_self (l x : Nat) : l &&& (x ||| l) = l := by
  apply Nat.eq_of_testBit_eq
  intro i
  simp only [Nat.testBit_land, Nat.testBit_lor]
  cases hl : l.testBit i <;> simp [hl]

/-- Merging a lane into a lane set makes the set contain it. -/
theorem laneIn_mergeLanes (lane x : Nat) : laneIn lane (mergeLanes x lane) :=
  land_lor_self lane x

/-- Containment of a lane in a fiber's lanes survives a bumpLanes write
anywhere. -/
theorem bumpLanes_laneIn (h : FHeap) (i lane j : Nat)
    (hin : laneIn lane ((h j).lanes)) :
    laneIn lane (((bumpLanes h i lane) j).lanes) := by
  by_cases e : j = i
  · subst e
    simp only [bumpLanes, if_pos rfl]
    exact laneIn_mergeLanes lane _
  · simpa [bumpLanes, e] using hin

/-- A bumpLanes write establishes containment at its own target. -/
theorem bumpLanes_self_laneIn (h : FHeap) (i lane : Nat) :
    laneIn lane (((bumpLanes h i lane) i).lanes) := by
  simp only [bumpLanes, if_pos rfl]
  exact laneIn_mergeLanes lane _

/-- Containment of a lane in a fiber's childLanes survives a
bumpChildLanes write anywhere. -/
theorem bumpChildLanes_laneIn (h : FHeap) (i lane j : Nat)
    (hin : laneIn lane ((h j).childLanes)) :
    laneIn lane (((bumpChildLanes h i lane) j).childLanes) := by
  by_cases e : j = i
  · subst e
    simp only [bumpChildLanes, if_pos rfl]
    exact laneIn_mergeLanes lane _
  · simpa [bumpChildLanes, e] using hin

/-- A bumpChildLanes write establishes containment at its own target. -/
theorem bumpChildLanes_self_laneIn (h : FHeap) (i lane : Nat) :
    laneIn lane (((bumpChildLanes h i lane) i).childLanes) := by
  simp only [bumpChildLanes, if_pos rfl]
  exact laneIn_mergeLanes lane _

/-- One ancestor step of the upward walk preserves every ret field. -/
theorem markStep_ret (lane : Nat) (h : FHeap) (p j : Nat) :
    ((markStep lane h p) j).ret = (h j).ret := by
  simp only [markStep]
  cases ha : ((bumpChildLanes h p lane) p).alternate <;>
    simp [bumpChildLanes_ret]

/-- One ancestor step of the upward walk preserves every tag field. -/
theorem markStep_tag (lane : Nat) (h : FHeap) (p j : Nat) :
    ((markStep lane h p) j).tag = (h j).tag := by
  simp only [markStep]
  cases ha : ((bumpChildLanes h p lane) p).alternate <;>
    simp [bumpChildLanes_tag]

/-- One ancestor step of the upward walk preserves every lanes field. -/
theorem markStep_lanes (lane : Nat) (h : FHeap) (p j : Nat) :
    ((markStep lane h p) j).lanes = (h j).lanes := by
  simp only [markStep]
  cases ha : ((bumpChildLanes h p lane) p).alternate <;>
    simp [bumpChildLanes_lanes]

/-- One ancestor step preserves childLanes containment everywhere. -/
theorem markStep_laneIn (lane : Nat) (h : FHeap) (p j : Nat)
    (hin : laneIn lane ((h j).childLanes)) :
    laneIn lane (((markStep lane h p) j).childLanes) := by
  simp only [markStep]
  cases ha : ((bumpChildLanes h p lane) p).alternate with
  | none =>
    simpa using bumpChildLanes_laneIn h p lane j hin
  | some alt =>
    simpa using bumpChildLanes_laneIn _ alt lane j (bumpChildLanes_laneIn h p lane j hin)

/-- One ancestor step establishes childLanes containment at the ancestor
itself. -/
theorem markStep_self_laneIn (lane : Nat) (h : FHeap) (p : Nat) :
    laneIn lane (((markStep lane h p) p).childLanes) := by
  simp only [markStep]
  cases ha : ((bumpChildLanes h p lane) p).alternate with
  | none =>
    simpa using bumpChildLanes_self_laneIn h p lane
  | some alt =>
    simpa using bumpChildLanes_laneIn _ alt lane p (bumpChildLanes_self_laneIn h p lane)

/-- The upward walk preserves every ret field. -/
theorem markLoopAux_ret (lane : Nat) :
    ∀ (fuel : Nat) (h : FHeap) (n j : Nat),
      (((markLoopAux lane fuel h n).1) j).ret = (h j).ret
  | 0, _, _, _ => rfl
  | fuel + 1, h, n, j => by
    cases hr : (h n).ret with
    | none => simp [markLoopAux, hr]
    | some p =>
      simp only [markLoopAux, hr]
      rw [markLoopAux_ret lane fuel (markStep lane h p) p j, markStep_ret]

/-- The upward walk preserves every tag field. -/
theorem markLoopAux_tag (lane : Nat) :
    ∀ (fuel : Nat) (h : FHeap) (n j : Nat),
      (((markLoopAux lane fuel h n).1) j).tag = (h j).tag
  | 0, _, _, _ => rfl
  | fuel + 1, h, n, j => by
    cases hr : (h n).ret with
    | none => simp [markLoopAux, hr]
    | some p =>
      simp only [markLoopAux, hr]
      rw [markLoopAux_tag lane fuel (markStep lane h p) p j, markStep_tag]

/-- The upward walk preserves every lanes field. -/
theorem markLoopAux_lanes (lane : Nat) :
    ∀ (fuel : Nat) (h : FHeap) (n j : Nat),
      (((markLoopAux lane fuel h n).1) j).lanes = (h j).lanes
  | 0, _, _, _ => rfl
  | fuel + 1, h, n, j => by
    cases hr : (h n).ret with
    | none => simp [markLoopAux, hr]
    | some p =>
      simp only [markLoopAux, hr]
      rw [markLoopAux_lanes lane fuel (markStep lane h p) p j, markStep_lanes]

/-- The upward walk preserves childLanes containment everywhere. -/
theorem markLoopAux_laneIn (lane : Nat) :
    ∀ (fuel : Nat) (h : FHeap) (n j : Nat),
      laneIn lane ((h j).childLanes) →
      laneIn lane ((((markLoopAux lane fuel h n).1) j).childLanes)
  | 0, _, _, _ => fun hin => hin
  | fuel + 1, h, n, j => by
    intro hin
    cases hr : (h n).ret with
    | none => simpa [markLoopAux, hr] using hin
    | some p =>
      simp only [markLoopAux, hr]
      exact markLoopAux_laneIn lane fuel _ p j (markStep_laneIn lane h p j hin)

/-- The ancestor chain depends only on ret fields. -/
theorem retChainAux_congr :
    ∀ (fuel : Nat) (h h' : FHeap), (∀ j, (h' j).ret = (h j).ret) →
      ∀ n, retChainAux h' fuel n = retChainAux h fuel n
  | 0, _, _, _, _ => rfl
  | fuel + 1, h, h', hret, n => by
    simp only [retChainAux, hret n]
    cases hr : (h n).ret with
    | none => rfl
    | some p => simp [retChainAux_congr fuel h h' hret p]

/-- The top of the return chain depends only on ret fields. -/
theorem topOf_congr :
    ∀ (fuel : Nat) (h h' : FHeap), (∀ j, (h' j).ret = (h j).ret) →
      ∀ n, topOf h' fuel n = topOf h fuel n
  | 0, h, h', hret, n => by
    simp only [topOf, hret n]
  | fuel + 1, h, h', hret, n => by
    simp only [topOf, hret n]
    cases hr : (h n).ret with
    | none => rfl
    | some p => exact topOf_congr fuel h h' hret p

/-- When the top of the return chain is reached within fuel, the upward
walk stops exactly there. -/
theorem markLoopAux_top (lane : Nat) :
    ∀ (fuel : Nat) (h : FHeap) (n top : Nat), topOf h fuel n = some top →
      (markLoopAux lane fuel h n).2 = top
  | 0, h, n, top => by
    intro ht
    simp only [topOf] at ht
    cases hr : (h n).ret with
    | none =>
      simp only [hr, Option.some.injEq] at ht
      simpa [markLoopAux] using ht
    | some p =>
      simp only [hr] at ht
      exact Option.noConfusion ht
  | fuel + 1, h, n, top => by
    intro ht
    simp only [topOf] at ht
    cases hr : (h n).ret with
    | none =>
      simp only [hr, Option.some.injEq] at ht
      simpa [markLoopAux, hr] using ht
    | some p =>
      simp only [hr] at ht
      simp only [markLoopAux, hr]
      have hc := topOf_congr fuel h (markStep lane h p)
        (fun j => markStep_ret lane h p j) p
      exact markLoopAux_top lane fuel (markStep lane h p) p top (hc.trans ht)

/-- The upward walk marks the lane into the childLanes of every ancestor
on the return chain. -/
theorem markLoopAux_chain (lane : Nat) :
    ∀ (fuel : Nat) (h : FHeap) (n : Nat),
      ∀ p ∈ retChainAux h fuel n,
        laneIn lane ((((markLoopAux lane fuel h n).1) p).childLanes)
  | 0, h, n => by
    intro p hp
    simp [retChainAux] at hp
  | fuel + 1, h, n => by
    intro p hp
    cases hr : (h n).ret with
    | none => simp [retChainAux, hr] at hp
    | some par =>
      simp only [retChainAux, hr, List.mem_cons] at hp
      simp only [markLoopAux, hr]
      rcases hp with rfl | hp2
      · exact markLoopAux_laneIn lane fuel _ p p (markStep_self_laneIn lane h p)
      · have hsame : retChainAux (markStep lane h par) fuel par
            = retChainAux h fuel par :=
          retChainAux_congr fuel h (markStep lane h par)
            (fun j => markStep_ret lane h par j) par
        exact markLoopAux_chain lane fuel (markStep lane h par) par p
          (by rw [hsame]; exact hp2)

/-- The initial source-fiber merges preserve every ret field. -/
theorem markSource_ret (lane : Nat) (h : FHeap) (f j : Nat) :
    ((markSource lane h f) j).ret = (h j).ret := by
  simp only [markSource]
  cases ha : ((bumpLanes h f lane) f).alternate <;> simp [bumpLanes_ret]

/-- The initial source-fiber merges preserve every tag field. -/
theorem markSource_tag (lane : Nat) (h : FHeap) (f j : Nat) :
    ((markSource lane h f) j).tag = (h j).tag := by
  simp only [markSource]
  cases ha : ((bumpLanes h f lane) f).alternate <;> simp [bumpLanes_tag]

/-- The initial merges put the lane into the source fiber's lanes. -/
theorem markSource_self_laneIn (lane : Nat) (h : FHeap) (f : Nat) :
    laneIn lane (((markSource lane h f) f).lanes) := by
  simp only [markSource]
  cases ha : ((bumpLanes h f lane) f).alternate with
  | none => simpa using bumpLanes_self_laneIn h f lane
  | some alt =>
    simpa using bumpLanes_laneIn _ alt lane f (bumpLanes_self_laneIn h f lane)

/-- C10: for a fiber whose return chain ends at a node that is not a
HostRoot, scheduleUpdateOnFiber returns null without marking the root
updated and without invoking ensureRootIsScheduled (root and scheduler
state are unchanged), even though the lane has already been merged into
the source fiber's lanes and into the childLanes of every ancestor on
the walked chain. -/
theorem c10_detached_tree_no_schedule (fuel : Nat) (s : GState)
    (fiber lane t top : Nat)
    (htop : topOf s.fheap fuel fiber = some top)
    (htag : (s.fheap top).tag ≠ HostRoot) :
    (scheduleUpdateOnFiber fuel s fiber lane t).2 = false
    ∧ (scheduleUpdateOnFiber fuel s fiber lane t).1.root = s.root
    ∧ (scheduleUpdateOnFiber fuel s fiber lane t).1.sched = s.sched
    ∧ laneIn lane (((scheduleUpdateOnFiber fuel s fiber lane t).1.fheap fiber).lanes)
    ∧ ∀ p ∈ retChainAux s.fheap fuel fiber,
        laneIn lane (((scheduleUpdateOnFiber fuel s fiber lane t).1.fheap p).childLanes) := by
  have hms_ret : ∀ j, ((markSource lane s.fheap fiber) j).ret = (s.fheap j).ret :=
    fun j => markSource_ret lane s.fheap fiber j
  have htop2 : topOf (markSource lane s.fheap fiber) fuel fiber = some top :=
    (topOf_congr fuel s.fheap (markSource lane s.fheap fiber) hms_ret fiber).trans htop
  have hend : (markLoopAux lane fuel (markSource lane s.fheap fiber) fiber).2 = top :=
    markLoopAux_top lane fuel _ fiber top htop2
  have htag2 :
      ((markLoopAux lane fuel (markSource lane s.fheap fiber) fiber).1
        ((markLoopAux lane fuel (markSource lane s.fheap fiber) fiber).2)).tag
      = (s.fheap top).tag := by
    rw [hend, markLoopAux_tag, markSource_tag]
  have hmark :
      markUpdateLaneFromFiberToRoot fuel s.fheap fiber lane
        = ((markLoopAux lane fuel (markSource lane s.fheap fiber) fiber).1, false) := by
    simp only [markUpdateLaneFromFiberToRoot]
    rw [if_neg]
    rw [htag2]
    exact htag
  simp only [scheduleUpdateOnFiber, hmark]
  refine ⟨rfl, rfl, rfl, ?_, ?_⟩
  · show laneIn lane
      (((markLoopAux lane fuel (markSource lane s.fheap fiber) fiber).1 fiber).lanes)
    rw [markLoopAux_lanes]
    exact markSource_self_laneIn lane s.fheap fiber
  · intro p hp
    have hp2 : p ∈ retChainAux (markSource lane s.fheap fiber) fuel fiber := by
      rw [retChainAux_congr fuel s.fheap (markSource lane s.fheap fiber) hms_ret fiber]
      exact hp
    show laneIn lane
      (((markLoopAux lane fuel (markSource lane s.fheap fiber) fiber).1 p).childLanes)
    exact markLoopAux_chain lane fuel (markSource lane s.fheap fiber) fiber p hp2

/-- Witness for C10: fiber 0 returns into fiber 1, a non-HostRoot top. -/
theorem c10_detached_tree_no_schedule_witness :
    topOf c10State.fheap 5 0 = some 1
    ∧ (c10State.fheap 1).tag ≠ HostRoot
    ∧ ((scheduleUpdateOnFiber 5 c10State 0 2 0).2 = false
       ∧ (scheduleUpdateOnFiber 5 c10State 0 2 0).1.root = c10State.root
       ∧ (scheduleUpdateOnFiber 5 c10State 0 2 0).1.sched = c10State.sched
       ∧ laneIn 2 (((scheduleUpdateOnFiber 5 c10State 0 2 0).1.fheap 0).lanes)
       ∧ ∀ p ∈ retChainAux c10State.fheap 5 0,
           laneIn 2 (((scheduleUpdateOnFiber 5 c10State 0 2 0).1.fheap p).childLanes)) :=
  ⟨by decide, by decide,
   c10_detached_tree_no_schedule 5 c10State 0 2 0 1 (by decide) (by decide)⟩

/-- Witness for C5: enqueueing the fresh updates 0, 1, 2 onto a fiber
with an empty pending ring. -/
theorem c5_pending_ring_witness :
    c5Fiber0.updateQueue = some c5Queue0
    ∧ c5Queue0.shared.pending = none
    ∧ ([0, 1, 2] : List Nat).Nodup
    ∧ (pendingOf (enqueueAll c1Heap0 c5Fiber0 [0, 1, 2]).2 =
        ([0, 1, 2] : List Nat).getLast?
       ∧ chainLinksB (enqueueAll c1Heap0 c5Fiber0 [0, 1, 2]).1 0 [0, 1, 2] = true
       ∧ walkFrom (enqueueAll c1Heap0 c5Fiber0 [0, 1, 2]).1 0 3 = [0, 1, 2]
       ∧ ∀ p, ([0, 1, 2] : List Nat).getLast? = some p →
           ((enqueueAll c1Heap0 c5Fiber0 [0, 1, 2]).1 p).next = some 0) :=
  ⟨rfl, rfl, by decide,
   c5_pending_ring c1Heap0 c5Fiber0 c5Queue0 0 [1, 2] rfl rfl (by decide)⟩

end SReact
